import Mathlib

/-!
Verification of the gocue cue-point calculator (pkg/cue of iSerganov/gocue).

The decision engine of calculator.go is embedded shallowly over the rational
numbers: every float64 quantity of the Go code becomes a rational, so the
arithmetic of the scans is modelled exactly.  Momentary loudness values are
kept as rationals as well (the Go code can in principle carry IEEE infinities
produced while parsing the ffmpeg stream, but all decision logic only compares
loudness values, which rationals model for every finite measurement).  The
printf style roundings (%.2f, %.3f) of the Go code are modelled by exact
rounding to the corresponding number of decimal places.
-/

namespace Cue

/-- One ebur128 measurement frame, from pkg/cue/frame.go.  Only the fields the
decision engine reads are modelled: the frame timestamp (PTSTime), the
momentary loudness (Loudness, last 400ms) and the running integrated loudness
(IntegratedLoudness).  The per-frame true-peak and loudness-range carrier
strings are consumed outside the scan loops and do not enter any claim. -/
structure Frame where
  ptsTime : ℚ
  loudness : ℚ
  integratedLoudness : ℚ
deriving DecidableEq

/-- Default frame used for out-of-range list indexing (never reached by the
loops of the Go code, which stay inside the slice bounds). -/
def dFrame : Frame := ⟨0, 0, 0⟩

/-- frames[i]: the frame at index i, with the default frame out of range. -/
def getF (fr : List Frame) (i : Nat) : Frame := fr.getD i dFrame

/-- The Calculator options of calculator.go (struct Calculator): target
loudness, blank-skip minimum silence duration, silence offset, overlay offset,
long-tail threshold seconds, extra offset, sustained drop threshold and the
clip-prevention flag (noClip). -/
structure Config where
  targetLoudness : ℚ
  blankSkip : ℚ
  silence : ℚ
  overlay : ℚ
  longtailSeconds : ℚ
  extra : ℚ
  drop : ℚ
  noClip : Bool
deriving DecidableEq

/-- Exact model of rounding to two decimal places, as performed by
fmt.Sprintf("%.2f", x) followed by strconv.ParseFloat in scan
(calculator.go lines 485-486). -/
def round2 (q : ℚ) : ℚ := (⌊q * 100 + 1/2⌋ : ℚ) / 100

/-- Exact model of rounding to three decimal places (fmt.Sprintf("%.3f", x)),
used whenever the Go code stores a numeric value back into the tag map. -/
def round3 (q : ℚ) : ℚ := (⌊q * 1000 + 1/2⌋ : ℚ) / 1000

/-- calcAmplify (calculator.go lines 409-420): the gain needed to reach the
target loudness, clamped when clip prevention (noClip) is on so that the true
peak stays at or below -1 dBFS; returns (amplify, amplifyCorrection). -/
def calcAmplify (c : Config) (loudness liqTruePeakDb : ℚ) : ℚ × ℚ :=
  let amplify := c.targetLoudness - loudness
  if c.noClip then
    let maxAmplify := -1 - liqTruePeakDb
    if amplify > maxAmplify then (maxAmplify, maxAmplify - amplify)
    else (amplify, 0)
  else (amplify, 0)

/-- Timestamp of the frame at index i (0 when out of range). -/
def ptsAt (fr : List Frame) (i : Nat) : ℚ := (getF fr i).ptsTime

/-- Momentary loudness of the frame at index i (0 when out of range). -/
def loudAt (fr : List Frame) (i : Nat) : ℚ := (getF fr i).loudness

/-- Forward scan: first index in [i, i+k) whose frame satisfies p, mirroring
the forward cue-in loop of scan (calculator.go lines 493-499). -/
def fwdScan (p : Frame → Bool) (fr : List Frame) : Nat → Nat → Option Nat
  | _, 0 => none
  | i, k+1 => if p (getF fr i) then some i else fwdScan p fr (i+1) k

/-- Backward scan: last index in [start, start+k) whose frame satisfies p,
mirroring the backward loops of scan (calculator.go lines 549-555, 576-582,
663-668, 684-689), which walk from end-1 down to start. -/
def revScan (p : Frame → Bool) (fr : List Frame) (start : Nat) : Nat → Option Nat
  | 0 => none
  | k+1 => if p (getF fr (start+k)) then some (start+k) else revScan p fr start k

/-- Outcome of the forward blank-detection loop (calculator.go lines 512-546):
the candidate early cue-out (cueOutTimeBlank, 0 when no long-enough silence
run was found), the endBlank index, and whether the loop left through its
candidate-found break (the Go code signals this only through the 0 sentinel of
cueOutTimeBlank). -/
structure BlankOut where
  cueOutTimeBlank : ℚ
  endBlank : Nat
  found : Bool
deriving DecidableEq

/-- The forward blank-detection loop of scan (calculator.go lines 518-546),
state-machine form.  The list argument holds the frames from index i to the
end; st is none while searching for the start of a silence run and
some (runStart, runStop) while inside a run; eb is the running endBlank value.
Entering a run performs the first inner-loop test on the same frame, so every
recursive call consumes one frame.  On running into the end of the track while
inside a run, endBlank is reset to endIdx (line 530); leaving the loop without
a candidate keeps the endBlank of the last run entered (the Go code never
resets it in the too-short branch, line 539). -/
def blankLoop (level skip : ℚ) (endIdx : Nat) :
    List Frame → Nat → Nat → Option (ℚ × ℚ) → BlankOut
  | [], _, _, some _ => ⟨0, endIdx, false⟩
  | [], _, eb, none => ⟨0, eb, false⟩
  | f :: rest, i, eb, none =>
      if f.loudness ≤ level then
        -- run entry at frame i: endBlank becomes i+1 (line 524), and the
        -- inner advancing loop (line 525) examines frame i first
        if f.ptsTime ≤ f.ptsTime + skip then
          blankLoop level skip endIdx rest (i+1) (i+1) (some (f.ptsTime, f.ptsTime + skip))
        else if f.ptsTime ≥ f.ptsTime + skip then ⟨f.ptsTime, i+1, true⟩
        else blankLoop level skip endIdx rest (i+1) (i+1) none
      else blankLoop level skip endIdx rest (i+1) eb none
  | f :: rest, i, eb, some (bs, bstop) =>
      if f.loudness ≤ level ∧ f.ptsTime ≤ bstop then
        blankLoop level skip endIdx rest (i+1) eb (some (bs, bstop))
      else if f.ptsTime ≥ bstop then ⟨bs, eb, true⟩
      else blankLoop level skip endIdx rest (i+1) eb none

/-- Last frame of the series (frames[len(frames)-1] in scan). -/
def lastFrame (fr : List Frame) : Frame := getF fr (fr.length - 1)

/-- The integrated loudness reported for the whole track: the last frame value
(calculator.go line 487). -/
def trackLoudness (fr : List Frame) : ℚ := (lastFrame fr).integratedLoudness

/-- The track duration derived in scan (calculator.go lines 484-486): last
timestamp plus 0.1s, formatted with two decimals and parsed back. -/
def trackDuration (fr : List Frame) : ℚ := round2 ((lastFrame fr).ptsTime + 1/10)

/-- silenceLevel = loudness + c.silence (calculator.go line 489). -/
def silenceLevel (c : Config) (fr : List Frame) : ℚ := trackLoudness fr + c.silence

/-- Index of the first frame whose momentary loudness exceeds the silence
level (cue-in loop, calculator.go lines 491-499). -/
def cueInIdx (c : Config) (fr : List Frame) : Option Nat :=
  fwdScan (fun f => decide (f.loudness > silenceLevel c fr)) fr 0 fr.length

/-- The start pointer after the cue-in loop: the found index, or 0. -/
def startIdx (c : Config) (fr : List Frame) : Nat := (cueInIdx c fr).getD 0

/-- cueInTime before the 400ms clamp. -/
def cueInRaw (c : Config) (fr : List Frame) : ℚ :=
  match cueInIdx c fr with
  | some i => ptsAt fr i
  | none => 0

/-- cueInTime after the 400ms clamp (calculator.go lines 502-504). -/
def cueInTime (c : Config) (fr : List Frame) : ℚ :=
  if cueInRaw c fr < 2/5 then 0 else cueInRaw c fr

/-- The blank-detection outcome of scan: the loop runs only when
c.blankSkip > 0 (calculator.go line 518); otherwise cueOutTimeBlank stays 0
and endBlank stays at the initial end (line 514). -/
def blankOut (c : Config) (fr : List Frame) : BlankOut :=
  if c.blankSkip > 0 then
    blankLoop (silenceLevel c fr) c.blankSkip fr.length
      (fr.drop (startIdx c fr)) (startIdx c fr) fr.length none
  else ⟨0, fr.length, false⟩

/-- Index of the last frame above the silence level, scanning backward from
the series end down to start (normal cue-out, calculator.go lines 549-555). -/
def cueOutIdx (c : Config) (fr : List Frame) : Option Nat :=
  revScan (fun f => decide (f.loudness > silenceLevel c fr)) fr (startIdx c fr)
    (fr.length - startIdx c fr)

/-- cueOutTime before the max correction: the found timestamp, or 0. -/
def cueOutPre (c : Config) (fr : List Frame) : ℚ :=
  match cueOutIdx c fr with
  | some j => ptsAt fr j
  | none => 0

/-- The end pointer set by the normal cue-out loop (j+1 when found, else the
series length, calculator.go line 552). -/
def endNormal (c : Config) (fr : List Frame) : Nat :=
  match cueOutIdx c fr with
  | some j => j + 1
  | none => fr.length

/-- The normal cue-out after the max(t, duration-t) correction
(calculator.go line 557). -/
def cueOutNormal (c : Config) (fr : List Frame) : ℚ :=
  max (cueOutPre c fr) (trackDuration fr - cueOutPre c fr)

/-- The liq_blank_skipped flag (calculator.go lines 561-566): blank detection
enabled, candidate nonzero, and candidate earlier than the normal cue-out. -/
def blankSkippedFlag (c : Config) (fr : List Frame) : Bool :=
  decide (c.blankSkip > 0) &&
    (decide (0 < (blankOut c fr).cueOutTimeBlank) &&
      decide ((blankOut c fr).cueOutTimeBlank < cueOutNormal c fr))

/-- The final cue-out: the blank candidate when blank reconciliation fires,
else the normal cue-out (calculator.go lines 562-565). -/
def cueOutFinal (c : Config) (fr : List Frame) : ℚ :=
  if blankSkippedFlag c fr then (blankOut c fr).cueOutTimeBlank else cueOutNormal c fr

/-- The end pointer used by the overlay, sustained and long-tail scans:
overwritten with endBlank whenever blank detection is enabled
(calculator.go line 567, unconditional inside the blankSkip > 0 branch). -/
def endFinal (c : Config) (fr : List Frame) : Nat :=
  if c.blankSkip > 0 then (blankOut c fr).endBlank else endNormal c fr

/-- overlay level = loudness + c.overlay (calculator.go line 573). -/
def overlayLevel (c : Config) (fr : List Frame) : ℚ := trackLoudness fr + c.overlay

/-- Backward scan from the (possibly blank-shrunk) end down to start for the
last frame louder than lvl; shared shape of the three overlay scans
(calculator.go lines 576-582, 663-668, 684-689). -/
def startNextScan (c : Config) (fr : List Frame) (lvl : ℚ) : Option Nat :=
  revScan (fun f => decide (f.loudness > lvl)) fr (startIdx c fr)
    (endFinal c fr - startIdx c fr)

/-- The timestamp found by an overlay scan, or 0 (the Go locals start at 0). -/
def scanPickVal (c : Config) (fr : List Frame) (lvl : ℚ) : ℚ :=
  match startNextScan c fr lvl with
  | some k => ptsAt fr k
  | none => 0

/-- The max(t, cueOut - t) correction applied to every overlay candidate
(calculator.go lines 583, 669, 690). -/
def maxCorrect (t cueOut : ℚ) : ℚ := max t (cueOut - t)

/-- startNextIdx after the normal overlay scan: found index or the end
pointer (calculator.go line 575). -/
def startNextIdxN (c : Config) (fr : List Frame) : Nat :=
  (startNextScan c fr (overlayLevel c fr)).getD (endFinal c fr)

/-- The normal overlay point after the max correction (line 583). -/
def startNextNormal (c : Config) (fr : List Frame) : ℚ :=
  maxCorrect (scanPickVal c fr (overlayLevel c fr)) (cueOutFinal c fr)

/-- The slice frames[startNextIdx:end] handed to calcEnding
(calculator.go line 650). -/
def endingSlice (c : Config) (fr : List Frame) : List Frame :=
  (fr.take (endFinal c fr)).drop (startNextIdxN c fr)

/-- The two half averages (y1, y2) of calcEnding (calculator.go lines
587-641): the elements are split in two equal halves (odd counts drop the
middle element), a single element is its own both halves, and the momentary
loudness of each half is averaged.  Only these two outputs flow onward in the
Go code (the midpoint and angle results are discarded at the call site). -/
def calcEndingY (elements : List Frame) : ℚ × ℚ :=
  let l := elements.length
  if l < 1 then (0, 0)
  else
    let l2 := l / 2
    let p1 := if l ≥ 2 then elements.take l2 else elements
    let p2 := if l ≥ 2 then elements.drop (l2 + l % 2) else elements
    let y1 := (p1.map (fun e => e.loudness)).sum
    let y2 := (p2.map (fun e => e.loudness)).sum
    if l2 > 0 then (y1 / p1.length, y2 / p2.length) else (y1, y2)

/-- The sustained-ending flag (calculator.go lines 644-670): only checked when
startNextIdx < end; the loudness-drop ratio (1 - y1/y2)*100 must be below the
drop threshold.  When y2 = 0 the Go code compares negative infinity with the
threshold, which always succeeds. -/
def sustainedFlag (c : Config) (fr : List Frame) : Bool :=
  if startNextIdxN c fr < endFinal c fr then
    let y := calcEndingY (endingSlice c fr)
    if y.2 = 0 then true else decide ((1 - y.1 / y.2) * 100 < c.drop)
  else false

/-- The level used by the sustained-ending rescan (calculator.go line 661):
max of the measured end loudness and loudness + overlay + extra. -/
def sustainedLevel (c : Config) (fr : List Frame) : ℚ :=
  max (calcEndingY (endingSlice c fr)).2 (trackLoudness fr + c.overlay + c.extra)

/-- The sustained overlay candidate (0 when the flag is off),
calculator.go lines 645, 662-669. -/
def startNextSustained (c : Config) (fr : List Frame) : ℚ :=
  if sustainedFlag c fr then
    maxCorrect (scanPickVal c fr (sustainedLevel c fr)) (cueOutFinal c fr)
  else 0

/-- The long-tail flag (calculator.go line 680): the gap between cue-out and
the normal overlay point exceeds longtailSeconds. -/
def longtailFlag (c : Config) (fr : List Frame) : Bool :=
  decide (cueOutFinal c fr - startNextNormal c fr > c.longtailSeconds)

/-- The level used by the long-tail rescan (calculator.go line 682). -/
def longtailLevel (c : Config) (fr : List Frame) : ℚ :=
  trackLoudness fr + c.overlay + c.extra

/-- The long-tail overlay candidate (0 when the flag is off),
calculator.go lines 679-691. -/
def startNextLongtail (c : Config) (fr : List Frame) : ℚ :=
  if longtailFlag c fr then
    maxCorrect (scanPickVal c fr (longtailLevel c fr)) (cueOutFinal c fr)
  else 0

/-- The consolidated overlay point (calculator.go line 694). -/
def crossStartNextFinal (c : Config) (fr : List Frame) : ℚ :=
  max (max (startNextNormal c fr) (startNextSustained c fr)) (startNextLongtail c fr)

/-- Model of one unit-labelled string field of Result.  The Go code renders
these fields with fmt.Sprintf, for example "%.3f LUFS"; the embedding keeps
the exactly rounded numeric content together with the unit label instead of
the rendered characters, and the empty-string zero value of a field the code
never sets is its own constructor. -/
inductive NumStr where
  | empty
  | num (value : ℚ) (unit : String)
deriving DecidableEq

/-- The Result struct of result.go (CUE calculations data; the current
revision of that file is included among the sources next to result_test.go):
sixteen fields in source order, six of them unit-labelled strings modelled as
NumStr values.  The JSON and YAML marshalling methods of result.go are
serialization and out of the algorithmic core. -/
structure Result where
  duration : ℚ
  cueDuration : ℚ
  cueIn : ℚ
  cueOut : ℚ
  crossStartNext : ℚ
  longTail : Bool
  sustainedEnding : Bool
  loudness : NumStr
  loudnessRange : NumStr
  amplify : NumStr
  amplifyAdjustment : NumStr
  referenceLoudness : NumStr
  blankSkip : ℚ
  blankSkipped : Bool
  truePeak : ℚ
  truePeakDb : NumStr
deriving DecidableEq

/-- The scan path of the Calculator (calculator.go lines 422-740) over an
already parsed frame series.  The collaborator-derived aggregates truePeak,
truePeakDb and loudnessRange are taken as inputs: they are extracted from the
carrier strings of the last frame, and truePeakDb goes through a base-10
logarithm, none of which is decision logic (truePeakDb only feeds
calcAmplify). -/
def scan (c : Config) (truePeak truePeakDb loudnessRange : ℚ) (fr : List Frame) : Result :=
  let a := calcAmplify c (trackLoudness fr) truePeakDb
  { duration := trackDuration fr
    cueDuration := cueOutFinal c fr - cueInTime c fr
    cueIn := cueInTime c fr
    cueOut := cueOutFinal c fr
    crossStartNext := crossStartNextFinal c fr
    longTail := longtailFlag c fr
    sustainedEnding := sustainedFlag c fr
    blankSkip := c.blankSkip
    blankSkipped := blankSkippedFlag c fr
    loudness := .num (round3 (trackLoudness fr)) "LUFS"
    loudnessRange := .num (round3 loudnessRange) "LU"
    amplify := .num (round3 a.1) "dB"
    amplifyAdjustment := .num (round3 a.2) "dB"
    referenceLoudness := .num (round3 c.targetLoudness) "LUFS"
    truePeak := truePeak
    truePeakDb := .num (round3 truePeakDb) "dBFS" }

/-! ## The cached-tag path (probe, doPreAnalysis, populate, adjustLoudness, parseTags, Calc) -/

/-- A tag value of the string-keyed tag map.  The Go code stores strings and
parses them with strconv.ParseFloat on demand; the embedding distinguishes
values that parse as a number (num q models the decimal string of q) from
values that do not (str s).  Boolean tags are the literal strings true and
false and are therefore str values. -/
inductive TagVal where
  | num (q : ℚ)
  | str (s : String)
deriving DecidableEq

/-- The tag map, newest binding first (the Go map is mutated in place; here an
update shadows older bindings). -/
def Tags := List (String × TagVal)

instance : DecidableEq Tags := by unfold Tags; infer_instance

/-- Map lookup (tags[k] with presence flag). -/
def lookupTag (tags : Tags) (k : String) : Option TagVal :=
  List.lookup k tags

/-- Map lookup defaulting to the empty string, as a plain tags[k] read of a
missing key does in Go. -/
def getTagD (tags : Tags) (k : String) : TagVal :=
  (lookupTag tags k).getD (.str "")

/-- Map update tags[k] = v. -/
def setTag (tags : Tags) (k : String) (v : TagVal) : Tags :=
  (k, v) :: tags

/-- strconv.ParseFloat on a tag value: numeric values parse to their number,
anything else fails. -/
def parseNum : TagVal → Option ℚ
  | .num q => some q
  | .str _ => none

/-- ParseFloat with the error ignored, yielding the float64 zero value (the
repeated pattern v, _ := strconv.ParseFloat(...) of parseTags and populate). -/
def parseNumD (v : TagVal) : ℚ := (parseNum v).getD 0

/-- The comparison tags[k] == "true" used for the boolean tags. -/
def isTrueTag : TagVal → Bool
  | .str s => s == "true"
  | .num _ => false

/-- The minimum tag set checked first by doPreAnalysis
(calculator.go lines 53-59). -/
def baseTags : List String :=
  ["duration", "liq_cue_in", "liq_cue_out", "liq_cross_start_next", "replaygain_track_gain"]

/-- The loudness-target adjustment of doPreAnalysis (calculator.go lines
307-315): when both liq_amplify and liq_reference_loudness parse, shift
liq_amplify by the target difference and set the reference to the current
target; on any parse failure the map is left unchanged. -/
def adjustAmplifyTags (c : Config) (tags : Tags) (liqAmplify refLoudness : TagVal) : Tags :=
  match parseNum liqAmplify, parseNum refLoudness with
  | some amplifyVal, some loudnessVal =>
      setTag (setTag tags "liq_amplify"
          (.num (round3 (amplifyVal + (c.targetLoudness - loudnessVal)))))
        "liq_reference_loudness" (.num (round3 c.targetLoudness))
  | _, _ => tags

/-- doPreAnalysis (calculator.go lines 292-356): the Cache-Sufficiency
Checker.  Returns the updated tag map on success and the insufficiency reason
otherwise.  The checks run in source order: the base tags, liq_amplify and
liq_reference_loudness presence, the loudness-target adjustment (silently
skipped when either value does not parse), liq_true_peak presence (never
parsed), liq_true_peak_db and liq_loudness presence and parseability, the
calcAmplify recomputation, the liq_blankskip mismatch check (silently skipped
when the value does not parse), and liq_loudness_range presence. -/
def doPreAnalysis (c : Config) (tags : Tags) : Except String Tags :=
  match baseTags.find? (fun bt => (lookupTag tags bt).isNone) with
  | some bt => .error ("tag " ++ bt ++ " is missing")
  | none =>
    match lookupTag tags "liq_amplify" with
    | none => .error "tag liq_amplify is missing"
    | some liqAmplify =>
      match lookupTag tags "liq_reference_loudness" with
      | none => .error "tag liq_reference_loudness is missing"
      | some refLoudness =>
        let tags1 := adjustAmplifyTags c tags liqAmplify refLoudness
        match lookupTag tags1 "liq_true_peak" with
        | none => .error "tag liq_true_peak is missing"
        | some _ =>
          match lookupTag tags1 "liq_true_peak_db" with
          | none => .error "tag liq_true_peak_db is missing"
          | some liqTruePeakDb =>
            match lookupTag tags1 "liq_loudness" with
            | none => .error "tag liq_loudness is missing"
            | some liqLoudness =>
              match parseNum liqTruePeakDb with
              | none => .error "cannot parse liq_true_peak_db"
              | some liqTruePeakDbVal =>
                match parseNum liqLoudness with
                | none => .error "cannot parse liq_loudness"
                | some liqLoudnessVal =>
                  let a := calcAmplify c liqLoudnessVal liqTruePeakDbVal
                  let tags2 :=
                    setTag (setTag tags1 "liq_amplify" (.num (round3 a.1)))
                      "liq_amplify_adjustment" (.num (round3 a.2))
                  let blankMismatch : Bool :=
                    match lookupTag tags2 "liq_blankskip" with
                    | some bv =>
                      match parseNum bv with
                      | some bq => decide (bq ≠ c.blankSkip)
                      | none => false
                    | none => false
                  if blankMismatch then
                    .error "liq_blankskip is different from the requested one"
                  else
                    match lookupTag tags2 "liq_loudness_range" with
                    | none => .error "tag liq_loudness_range is missing"
                    | some _ => .ok tags2

/-- populate (calculator.go lines 358-407): fill still-missing tags with
defaults and mirror ReplayGain tags from the liq_ ones. -/
def populate (c : Config) (tags : Tags) : Tags :=
  let t1 := if (lookupTag tags "liq_longtail").isNone then
      setTag tags "liq_longtail" (.str "false") else tags
  let t2 := if (lookupTag t1 "liq_sustained_ending").isNone then
      setTag t1 "liq_sustained_ending" (.str "false") else t1
  let t3 := if (lookupTag t2 "liq_amplify").isNone then
      setTag t2 "liq_amplify" (getTagD t2 "replaygain_track_gain") else t2
  let t4 := if (lookupTag t3 "liq_amplify_adjustment").isNone then
      setTag t3 "liq_amplify_adjustment" (.num 0) else t3
  let t5 := if (lookupTag t4 "liq_loudness").isNone then
      setTag t4 "liq_loudness"
        (.num (round3 (c.targetLoudness - parseNumD (getTagD t4 "replaygain_track_gain"))))
      else t4
  let t6 := if (lookupTag t5 "liq_blankskip").isNone then
      setTag t5 "liq_blankskip" (.num (round3 c.blankSkip)) else t5
  let t7 := if (lookupTag t6 "liq_blank_skipped").isNone then
      setTag t6 "liq_blank_skipped" (.str "false") else t6
  let t8 := if (lookupTag t7 "liq_reference_loudness").isNone then
      setTag t7 "liq_reference_loudness" (.num (round3 c.targetLoudness)) else t7
  let t9 := if (lookupTag t8 "replaygain_track_gain").isNone then
      setTag t8 "replaygain_track_gain" (getTagD t8 "liq_amplify") else t8
  let t10 := if (lookupTag t9 "replaygain_track_peak").isNone then
      setTag t9 "replaygain_track_peak" (getTagD t9 "liq_true_peak") else t9
  let t11 := if (lookupTag t10 "replaygain_track_range").isNone then
      setTag t10 "replaygain_track_range" (getTagD t10 "liq_loudness_range") else t10
  if (lookupTag t11 "replaygain_reference_loudness").isNone then
    setTag t11 "replaygain_reference_loudness" (getTagD t11 "liq_reference_loudness")
  else t11

/-- adjustLoudness (calculator.go lines 215-267): derive
replaygain_track_gain from an Opus r128_track_gain, backfill liq_amplify,
shift an RG1 positive reference loudness, backfill liq_reference_loudness
(with the unshifted value, as the source does), and derive liq_cue_duration
from the cue tags. -/
def adjustLoudness (c : Config) (tags : Tags) : Tags :=
  let t1 :=
    match lookupTag tags "r128_track_gain" with
    | some v =>
      match parseNum v with
      | some val =>
          setTag tags "replaygain_track_gain"
            (.num (round3 (val / 256 + (c.targetLoudness - (-23)))))
      | none => tags
    | none => tags
  let t2 := if (lookupTag t1 "liq_amplify").isNone then
      match lookupTag t1 "replaygain_track_gain" with
      | some replayGain => setTag t1 "liq_amplify" replayGain
      | none => t1
    else t1
  let t3 :=
    match lookupTag t2 "replaygain_reference_loudness" with
    | some replayRefLoudness =>
      let t3a :=
        match parseNum replayRefLoudness with
        | some val => setTag t2 "replaygain_reference_loudness" (.num (round3 (val - 107)))
        | none => t2
      if (lookupTag t3a "liq_reference_loudness").isNone then
        setTag t3a "liq_reference_loudness" replayRefLoudness
      else t3a
    | none => t2
  match lookupTag t3 "liq_cue_in" with
  | some cueIn =>
    match parseNum cueIn with
    | some cueInVal =>
      match lookupTag t3 "liq_cue_out" with
      | some cueOut =>
        match parseNum cueOut with
        | some cueOutVal =>
            setTag t3 "liq_cue_duration" (.num (round3 (cueOutVal - cueInVal)))
        | none => t3
      | none =>
        match parseNum (getTagD t3 "duration") with
        | some dur => setTag t3 "liq_cue_duration" (.num (round3 (dur - cueInVal)))
        | none => t3
    | none => t3
  | none => t3

/-- parseTags (calculator.go lines 801-834): build the Result from the
normalized tag map, with every parse error ignored (zero value) and boolean
tags read by comparison with the string true.  The string fields are rendered
with %.3f (and %.2f for the true-peak dB) plus their unit; referenceLoudness
is not set by the Go struct literal and keeps the empty zero value. -/
def parseTags (tags : Tags) : Result :=
  { duration := parseNumD (getTagD tags "duration")
    cueDuration := parseNumD (getTagD tags "liq_cue_duration")
    cueIn := parseNumD (getTagD tags "liq_cue_in")
    cueOut := parseNumD (getTagD tags "liq_cue_out")
    crossStartNext := parseNumD (getTagD tags "liq_cross_start_next")
    longTail := isTrueTag (getTagD tags "liq_longtail")
    sustainedEnding := isTrueTag (getTagD tags "liq_sustained_ending")
    blankSkip := parseNumD (getTagD tags "liq_blankskip")
    blankSkipped := isTrueTag (getTagD tags "liq_blank_skipped")
    truePeak := parseNumD (getTagD tags "liq_true_peak")
    truePeakDb := .num (round2 (parseNumD (getTagD tags "liq_true_peak_db"))) "dBFS"
    loudness := .num (round3 (parseNumD (getTagD tags "liq_loudness"))) "LUFS"
    loudnessRange := .num (round3 (parseNumD (getTagD tags "liq_loudness_range"))) "LU"
    amplify := .num (round3 (parseNumD (getTagD tags "liq_amplify"))) "dB"
    amplifyAdjustment := .num (round3 (parseNumD (getTagD tags "liq_amplify_adjustment"))) "dB"
    referenceLoudness := .empty }

/-- The error type of Calc: collaborator failures (subprocess and JSON errors
of probe and scan) versus the internal ErrRequireAnalysis of error.go. -/
inductive CalcError where
  | external (e : String)
  | requireAnalysis (reason : String)
deriving DecidableEq

/-- Calc (calculator.go lines 144-156) with the two collaborator calls as
inputs: probeRes is the outcome of probe(pathToFile) and scanRes the outcome
of scan(pathToFile).  When the probe succeeds and doPreAnalysis accepts the
tags, the normalized cache is parsed; otherwise the scan outcome is returned
as is. -/
def calcModel (c : Config) (probeRes : Except String Tags)
    (scanRes : Except String Result) : Except CalcError Result :=
  match probeRes with
  | .error e => .error (.external e)
  | .ok tags =>
    match doPreAnalysis c tags with
    | .ok tags1 => .ok (parseTags (adjustLoudness c (populate c tags1)))
    | .error _ => scanRes.mapError .external

/-! ## Specification lemmas for the scan loops -/

theorem fwdScan_eq_some (p : Frame → Bool) (fr : List Frame) :
    ∀ k i j, fwdScan p fr i k = some j →
      i ≤ j ∧ j < i + k ∧ p (getF fr j) = true ∧
        ∀ m, i ≤ m → m < j → p (getF fr m) = false := by
  intro k
  induction k with
  | zero => intro i j h; simp [fwdScan] at h
  | succ n ih =>
    intro i j h
    simp only [fwdScan] at h
    by_cases hp : p (getF fr i)
    · simp only [hp, if_true] at h
      injection h with h
      subst h
      exact ⟨le_refl _, by omega, hp, fun m h1 h2 => by omega⟩
    · simp only [hp, if_false] at h
      obtain ⟨h1, h2, h3, h4⟩ := ih (i+1) j h
      refine ⟨by omega, by omega, h3, ?_⟩
      intro m hm1 hm2
      rcases Nat.eq_or_lt_of_le hm1 with rfl | hlt
      · simpa using hp
      · exact h4 m hlt hm2

theorem fwdScan_eq_none (p : Frame → Bool) (fr : List Frame) :
    ∀ k i, fwdScan p fr i k = none →
      ∀ m, i ≤ m → m < i + k → p (getF fr m) = false := by
  intro k
  induction k with
  | zero => intro i _ m h1 h2; omega
  | succ n ih =>
    intro i h m h1 h2
    simp only [fwdScan] at h
    by_cases hp : p (getF fr i)
    · simp [hp] at h
    · simp only [hp, if_false] at h
      rcases Nat.eq_or_lt_of_le h1 with rfl | hlt
      · simpa using hp
      · exact ih (i+1) h m hlt (by omega)

theorem revScan_eq_some (p : Frame → Bool) (fr : List Frame) (s : Nat) :
    ∀ k j, revScan p fr s k = some j →
      s ≤ j ∧ j < s + k ∧ p (getF fr j) = true ∧
        ∀ m, j < m → m < s + k → p (getF fr m) = false := by
  intro k
  induction k with
  | zero => intro j h; simp [revScan] at h
  | succ n ih =>
    intro j h
    simp only [revScan] at h
    by_cases hp : p (getF fr (s + n))
    · simp only [hp, if_true] at h
      injection h with h
      subst h
      exact ⟨by omega, by omega, hp, fun m h1 h2 => by omega⟩
    · simp only [hp, if_false] at h
      obtain ⟨h1, h2, h3, h4⟩ := ih j h
      refine ⟨h1, by omega, h3, ?_⟩
      intro m hm1 hm2
      rcases Nat.lt_succ_iff_lt_or_eq.mp (by omega : m < (s + n) + 1) with hlt | rfl
      · exact h4 m hm1 (by omega)
      · simpa using hp

theorem revScan_eq_none (p : Frame → Bool) (fr : List Frame) (s : Nat) :
    ∀ k, revScan p fr s k = none →
      ∀ m, s ≤ m → m < s + k → p (getF fr m) = false := by
  intro k
  induction k with
  | zero => intro _ m h1 h2; omega
  | succ n ih =>
    intro h m h1 h2
    simp only [revScan] at h
    by_cases hp : p (getF fr (s + n))
    · simp [hp] at h
    · simp only [hp, if_false] at h
      rcases Nat.lt_succ_iff_lt_or_eq.mp (by omega : m < (s + n) + 1) with hlt | rfl
      · exact ih h m h1 (by omega)
      · simpa using hp

theorem blankLoop_not_found (level skip : ℚ) (endIdx : Nat) :
    ∀ (l : List Frame) i eb st,
      (blankLoop level skip endIdx l i eb st).found = false →
      (blankLoop level skip endIdx l i eb st).cueOutTimeBlank = 0 := by
  intro l
  induction l with
  | nil => intro i eb st _; cases st <;> simp [blankLoop]
  | cons f rest ih =>
    intro i eb st h
    match st with
    | none =>
      simp only [blankLoop] at h ⊢
      by_cases h1 : f.loudness ≤ level
      · simp only [h1, if_true] at h ⊢
        by_cases h2 : f.ptsTime ≤ f.ptsTime + skip
        · simp only [h2, if_true] at h ⊢
          exact ih _ _ _ h
        · simp only [h2, if_false] at h ⊢
          by_cases h3 : f.ptsTime ≥ f.ptsTime + skip
          · simp [h3] at h
          · simp only [h3, if_false] at h ⊢
            exact ih _ _ _ h
      · simp only [h1, if_false] at h ⊢
        exact ih _ _ _ h
    | some bp =>
      obtain ⟨bs, bstop⟩ := bp
      simp only [blankLoop] at h ⊢
      by_cases h1 : f.loudness ≤ level ∧ f.ptsTime ≤ bstop
      · simp only [h1, if_true] at h ⊢
        exact ih _ _ _ h
      · simp only [h1, if_false] at h ⊢
        by_cases h2 : f.ptsTime ≥ bstop
        · simp [h2] at h
        · simp only [h2, if_false] at h ⊢
          exact ih _ _ _ h

theorem getF_of_drop_cons {fr rest : List Frame} {i : Nat} {f : Frame}
    (h : fr.drop i = f :: rest) :
    getF fr i = f ∧ fr.drop (i+1) = rest ∧ i < fr.length := by
  have hlen : i < fr.length := by
    by_contra hc
    rw [List.drop_eq_nil_of_le (by omega)] at h
    simp at h
  have hh : fr[i]? = some f := by
    rw [← List.head?_drop, h]; rfl
  have ht : fr.drop (i+1) = rest := by
    rw [← List.tail_drop, h]; rfl
  refine ⟨?_, ht, hlen⟩
  unfold getF
  rw [List.getD_eq_getElem?_getD, hh]
  rfl

theorem blankLoop_endBlank_le (level skip : ℚ) (fr : List Frame) :
    ∀ (l : List Frame) i eb st, l = fr.drop i → eb ≤ fr.length →
      (blankLoop level skip fr.length l i eb st).endBlank ≤ fr.length := by
  intro l
  induction l with
  | nil => intro i eb st _ heb; cases st <;> simp [blankLoop, heb]
  | cons f rest ih =>
    intro i eb st hdrop heb
    obtain ⟨hgf, hdrop1, hlen⟩ := getF_of_drop_cons hdrop.symm
    match st with
    | none =>
      simp only [blankLoop]
      by_cases h1 : f.loudness ≤ level
      · simp only [h1, if_true]
        by_cases h2 : f.ptsTime ≤ f.ptsTime + skip
        · simp only [h2, if_true]
          exact ih (i+1) (i+1) _ hdrop1.symm (by omega)
        · simp only [h2, if_false]
          by_cases h3 : f.ptsTime ≥ f.ptsTime + skip
          · simp only [h3, if_true]
            omega
          · simp only [h3, if_false]
            exact ih (i+1) (i+1) _ hdrop1.symm (by omega)
      · simp only [h1, if_false]
        exact ih (i+1) eb _ hdrop1.symm heb
    | some bp =>
      obtain ⟨bs, bstop⟩ := bp
      simp only [blankLoop]
      by_cases h1 : f.loudness ≤ level ∧ f.ptsTime ≤ bstop
      · simp only [h1, if_true]
        exact ih (i+1) eb _ hdrop1.symm heb
      · simp only [h1, if_false]
        by_cases h2 : f.ptsTime ≥ bstop
        · simp only [h2, if_true]
          exact heb
        · simp only [h2, if_false]
          exact ih (i+1) eb _ hdrop1.symm heb

theorem blankLoop_found (level skip : ℚ) (fr : List Frame) (s : Nat) :
    ∀ (l : List Frame) i eb st, l = fr.drop i → s ≤ i →
      (∀ q r, st = some (q, r) →
        1 ≤ eb ∧ s ≤ eb - 1 ∧ eb - 1 < fr.length ∧ q = ptsAt fr (eb - 1)) →
      (blankLoop level skip fr.length l i eb st).found = true →
      ∃ m, s ≤ m ∧ m < fr.length ∧
        (blankLoop level skip fr.length l i eb st).endBlank = m + 1 ∧
        (blankLoop level skip fr.length l i eb st).cueOutTimeBlank = ptsAt fr m := by
  intro l
  induction l with
  | nil =>
    intro i eb st _ _ _ hfound
    cases st <;> simp [blankLoop] at hfound
  | cons f rest ih =>
    intro i eb st hdrop hs hinv hfound
    obtain ⟨hgf, hdrop1, hlen⟩ := getF_of_drop_cons hdrop.symm
    match st with
    | none =>
      simp only [blankLoop] at hfound ⊢
      by_cases h1 : f.loudness ≤ level
      · simp only [h1, if_true] at hfound ⊢
        by_cases h2 : f.ptsTime ≤ f.ptsTime + skip
        · simp only [h2, if_true] at hfound ⊢
          refine ih (i+1) (i+1) _ hdrop1.symm (by omega) ?_ hfound
          intro q r hqr
          simp only [Option.some.injEq, Prod.mk.injEq] at hqr
          obtain ⟨hq, _⟩ := hqr
          refine ⟨by omega, by omega, by simpa using hlen, ?_⟩
          rw [Nat.add_sub_cancel, ← hq, ptsAt, hgf]
        · simp only [h2, if_false] at hfound ⊢
          by_cases h3 : f.ptsTime ≥ f.ptsTime + skip
          · simp only [h3, if_true] at hfound ⊢
            exact ⟨i, hs, hlen, rfl, by rw [ptsAt, hgf]⟩
          · simp only [h3, if_false] at hfound ⊢
            exact ih (i+1) (i+1) none hdrop1.symm (by omega) (by simp) hfound
      · simp only [h1, if_false] at hfound ⊢
        exact ih (i+1) eb none hdrop1.symm (by omega) (by simp) hfound
    | some bp =>
      obtain ⟨bs, bstop⟩ := bp
      obtain ⟨he1, he2, he3, he4⟩ := hinv bs bstop rfl
      simp only [blankLoop] at hfound ⊢
      by_cases h1 : f.loudness ≤ level ∧ f.ptsTime ≤ bstop
      · simp only [h1, if_true] at hfound ⊢
        refine ih (i+1) eb _ hdrop1.symm (by omega) ?_ hfound
        intro q r hqr
        simp only [Option.some.injEq, Prod.mk.injEq] at hqr
        obtain ⟨hq, _⟩ := hqr
        subst hq
        exact ⟨he1, he2, he3, he4⟩
      · simp only [h1, if_false] at hfound ⊢
        by_cases h2 : f.ptsTime ≥ bstop
        · simp only [h2, if_true] at hfound ⊢
          exact ⟨eb - 1, he2, he3, by omega, he4⟩
        · simp only [h2, if_false] at hfound ⊢
          exact ih (i+1) eb none hdrop1.symm (by omega) (by simp) hfound

theorem blankOut_endBlank_le (c : Config) (fr : List Frame) :
    (blankOut c fr).endBlank ≤ fr.length := by
  unfold blankOut
  by_cases h : c.blankSkip > 0
  · simp only [h, if_true]
    exact blankLoop_endBlank_le _ _ fr _ (startIdx c fr) _ none rfl (le_refl _)
  · simp [h]

theorem blankOut_not_found (c : Config) (fr : List Frame)
    (h : (blankOut c fr).found = false) :
    (blankOut c fr).cueOutTimeBlank = 0 := by
  unfold blankOut at h ⊢
  by_cases hb : c.blankSkip > 0
  · simp only [hb, if_true] at h ⊢
    exact blankLoop_not_found _ _ _ _ _ _ _ h
  · simp [hb]

theorem blankOut_found_spec (c : Config) (fr : List Frame)
    (h : (blankOut c fr).found = true) :
    ∃ m, startIdx c fr ≤ m ∧ m < fr.length ∧
      (blankOut c fr).endBlank = m + 1 ∧
      (blankOut c fr).cueOutTimeBlank = ptsAt fr m := by
  unfold blankOut at h ⊢
  by_cases hb : c.blankSkip > 0
  · simp only [hb, if_true] at h ⊢
    exact blankLoop_found _ _ fr (startIdx c fr) _ _ _ none rfl (le_refl _) (by simp) h
  · simp [hb] at h

/-! ## Inequalities of the scan decision over a valid series.
A valid Sample Series in the sense of the spec is non-empty with
non-decreasing, non-negative timestamps; the lemmas take the three facts as
explicit hypotheses (hne, h0, hmono). -/

theorem ptsAt_nonneg (fr : List Frame) (h0 : 0 ≤ ptsAt fr 0)
    (hmono : ∀ b, b < fr.length → ∀ a, a ≤ b → ptsAt fr a ≤ ptsAt fr b)
    {m : Nat} (hm : m < fr.length) : 0 ≤ ptsAt fr m :=
  le_trans h0 (hmono m hm 0 (Nat.zero_le m))

theorem ptsAt_le_last (fr : List Frame)
    (hmono : ∀ b, b < fr.length → ∀ a, a ≤ b → ptsAt fr a ≤ ptsAt fr b)
    {m : Nat} (hm : m < fr.length) : ptsAt fr m ≤ ptsAt fr (fr.length - 1) :=
  hmono (fr.length - 1) (by omega) m (by omega)

theorem round2_lt (q : ℚ) : q - 1/200 < round2 q := by
  unfold round2
  have h := Int.sub_one_lt_floor (q * 100 + 1/2)
  linarith

theorem lt_trackDuration (fr : List Frame)
    (hmono : ∀ b, b < fr.length → ∀ a, a ≤ b → ptsAt fr a ≤ ptsAt fr b)
    {m : Nat} (hm : m < fr.length) : ptsAt fr m < trackDuration fr := by
  have h1 : ptsAt fr m ≤ ptsAt fr (fr.length - 1) := ptsAt_le_last fr hmono hm
  have h2 : ptsAt fr (fr.length - 1) + 1/10 - 1/200 < trackDuration fr :=
    round2_lt (ptsAt fr (fr.length - 1) + 1/10)
  linarith

theorem trackDuration_pos (fr : List Frame) (hne : fr ≠ []) (h0 : 0 ≤ ptsAt fr 0)
    (hmono : ∀ b, b < fr.length → ∀ a, a ≤ b → ptsAt fr a ≤ ptsAt fr b) :
    0 < trackDuration fr := by
  have hl : 0 < fr.length := List.length_pos.mpr hne
  have := lt_trackDuration fr hmono hl
  linarith

theorem cueInIdx_some_spec (c : Config) (fr : List Frame) {i : Nat}
    (h : cueInIdx c fr = some i) :
    i < fr.length ∧ loudAt fr i > silenceLevel c fr ∧
      ∀ j, j < i → ¬(loudAt fr j > silenceLevel c fr) := by
  unfold cueInIdx at h
  obtain ⟨h1, h2, h3, h4⟩ := fwdScan_eq_some _ fr fr.length 0 i h
  refine ⟨by omega, by simpa [loudAt] using h3, ?_⟩
  intro j hj
  have := h4 j (Nat.zero_le j) hj
  simpa [loudAt] using this

theorem cueInIdx_none_spec (c : Config) (fr : List Frame)
    (h : cueInIdx c fr = none) :
    ∀ j, j < fr.length → ¬(loudAt fr j > silenceLevel c fr) := by
  unfold cueInIdx at h
  intro j hj
  have := fwdScan_eq_none _ fr fr.length 0 h j (Nat.zero_le j) (by omega)
  simpa [loudAt] using this

theorem startIdx_le_length (c : Config) (fr : List Frame) :
    startIdx c fr ≤ fr.length := by
  unfold startIdx
  cases hI : cueInIdx c fr with
  | none => simp
  | some i =>
    have := (cueInIdx_some_spec c fr hI).1
    simpa using le_of_lt this

theorem startIdx_lt_length (c : Config) (fr : List Frame) (hne : fr ≠ []) :
    startIdx c fr < fr.length := by
  unfold startIdx
  cases hI : cueInIdx c fr with
  | none => simpa using List.length_pos.mpr hne
  | some i => simpa using (cueInIdx_some_spec c fr hI).1

theorem cueOutIdx_some_spec (c : Config) (fr : List Frame) {j : Nat}
    (h : cueOutIdx c fr = some j) :
    startIdx c fr ≤ j ∧ j < fr.length ∧ loudAt fr j > silenceLevel c fr ∧
      ∀ m, j < m → m < fr.length → ¬(loudAt fr m > silenceLevel c fr) := by
  unfold cueOutIdx at h
  obtain ⟨h1, h2, h3, h4⟩ := revScan_eq_some _ fr (startIdx c fr) _ j h
  have hsl := startIdx_le_length c fr
  refine ⟨h1, by omega, by simpa [loudAt] using h3, ?_⟩
  intro m hm1 hm2
  have := h4 m hm1 (by omega)
  simpa [loudAt] using this

theorem cueOutIdx_none_spec (c : Config) (fr : List Frame)
    (h : cueOutIdx c fr = none) :
    ∀ m, startIdx c fr ≤ m → m < fr.length → ¬(loudAt fr m > silenceLevel c fr) := by
  unfold cueOutIdx at h
  intro m hm1 hm2
  have := revScan_eq_none _ fr (startIdx c fr) _ h m hm1 (by omega)
  simpa [loudAt] using this

theorem cueInIdx_none_of_cueOutIdx_none (c : Config) (fr : List Frame)
    (h : cueOutIdx c fr = none) : cueInIdx c fr = none := by
  cases hI : cueInIdx c fr with
  | none => rfl
  | some i =>
    obtain ⟨hlen, hp, _⟩ := cueInIdx_some_spec c fr hI
    have hstart : startIdx c fr = i := by unfold startIdx; rw [hI]; rfl
    exact absurd hp (cueOutIdx_none_spec c fr h i (by omega) hlen)

theorem cueInTime_nonneg (c : Config) (fr : List Frame) : 0 ≤ cueInTime c fr := by
  unfold cueInTime
  by_cases h : cueInRaw c fr < 2/5
  · simp [h]
  · simp only [h, if_false]
    linarith [not_lt.mp h]

theorem cueInTime_le_ptsStart (c : Config) (fr : List Frame)
    (h0 : 0 ≤ ptsAt fr 0)
    (hmono : ∀ b, b < fr.length → ∀ a, a ≤ b → ptsAt fr a ≤ ptsAt fr b) :
    cueInTime c fr ≤ ptsAt fr (startIdx c fr) := by
  unfold cueInTime cueInRaw startIdx
  cases hI : cueInIdx c fr with
  | none => simpa using h0
  | some i =>
    have hi : i < fr.length := (cueInIdx_some_spec c fr hI).1
    have hnn : 0 ≤ ptsAt fr i := ptsAt_nonneg fr h0 hmono hi
    by_cases h : ptsAt fr i < 2/5 <;> simp [h]
    exact hnn

theorem cueOutPre_eq_of_some (c : Config) (fr : List Frame) {j : Nat}
    (hj : cueOutIdx c fr = some j) : cueOutPre c fr = ptsAt fr j := by
  unfold cueOutPre; rw [hj]

theorem cueOutPre_eq_of_none (c : Config) (fr : List Frame)
    (hj : cueOutIdx c fr = none) : cueOutPre c fr = 0 := by
  unfold cueOutPre; rw [hj]

theorem cueOutPre_nonneg (c : Config) (fr : List Frame)
    (h0 : 0 ≤ ptsAt fr 0)
    (hmono : ∀ b, b < fr.length → ∀ a, a ≤ b → ptsAt fr a ≤ ptsAt fr b) :
    0 ≤ cueOutPre c fr := by
  cases hj : cueOutIdx c fr with
  | none => rw [cueOutPre_eq_of_none c fr hj]
  | some j =>
    rw [cueOutPre_eq_of_some c fr hj]
    exact ptsAt_nonneg fr h0 hmono (cueOutIdx_some_spec c fr hj).2.1

theorem cueOutPre_lt_dur (c : Config) (fr : List Frame) (hne : fr ≠ [])
    (h0 : 0 ≤ ptsAt fr 0)
    (hmono : ∀ b, b < fr.length → ∀ a, a ≤ b → ptsAt fr a ≤ ptsAt fr b) :
    cueOutPre c fr < trackDuration fr := by
  cases hj : cueOutIdx c fr with
  | none =>
    rw [cueOutPre_eq_of_none c fr hj]
    exact trackDuration_pos fr hne h0 hmono
  | some j =>
    rw [cueOutPre_eq_of_some c fr hj]
    exact lt_trackDuration fr hmono (cueOutIdx_some_spec c fr hj).2.1

theorem cueOutNormal_le_dur (c : Config) (fr : List Frame) (hne : fr ≠ [])
    (h0 : 0 ≤ ptsAt fr 0)
    (hmono : ∀ b, b < fr.length → ∀ a, a ≤ b → ptsAt fr a ≤ ptsAt fr b) :
    cueOutNormal c fr ≤ trackDuration fr := by
  unfold cueOutNormal
  apply max_le
  · exact le_of_lt (cueOutPre_lt_dur c fr hne h0 hmono)
  · linarith [cueOutPre_nonneg c fr h0 hmono]

theorem cueIn_le_cueOutNormal (c : Config) (fr : List Frame) (_hne : fr ≠ [])
    (h0 : 0 ≤ ptsAt fr 0)
    (hmono : ∀ b, b < fr.length → ∀ a, a ≤ b → ptsAt fr a ≤ ptsAt fr b) :
    cueInTime c fr ≤ cueOutNormal c fr := by
  cases hj : cueOutIdx c fr with
  | some j =>
    obtain ⟨hsj, hjlen, _, _⟩ := cueOutIdx_some_spec c fr hj
    have h1 := cueInTime_le_ptsStart c fr h0 hmono
    have h2 : ptsAt fr (startIdx c fr) ≤ ptsAt fr j := hmono j hjlen _ hsj
    have h3 : cueOutPre c fr = ptsAt fr j := cueOutPre_eq_of_some c fr hj
    have h4 : cueOutPre c fr ≤ cueOutNormal c fr := le_max_left _ _
    linarith
  | none =>
    have hIn : cueInIdx c fr = none := cueInIdx_none_of_cueOutIdx_none c fr hj
    have h1 : cueInTime c fr = 0 := by
      unfold cueInTime cueInRaw
      rw [hIn]
      norm_num
    have h2 : cueOutPre c fr = 0 := cueOutPre_eq_of_none c fr hj
    have h3 : cueOutPre c fr ≤ cueOutNormal c fr := le_max_left _ _
    linarith

theorem blankSkippedFlag_iff (c : Config) (fr : List Frame) :
    blankSkippedFlag c fr = true ↔
      c.blankSkip > 0 ∧ 0 < (blankOut c fr).cueOutTimeBlank ∧
        (blankOut c fr).cueOutTimeBlank < cueOutNormal c fr := by
  unfold blankSkippedFlag
  simp [and_assoc]

theorem blankSkippedFlag_found (c : Config) (fr : List Frame)
    (h : blankSkippedFlag c fr = true) : (blankOut c fr).found = true := by
  have h2 := (blankSkippedFlag_iff c fr).mp h
  by_contra hc
  have h3 : (blankOut c fr).cueOutTimeBlank = 0 :=
    blankOut_not_found c fr (by simpa using hc)
  rw [h3] at h2
  exact absurd h2.2.1 (lt_irrefl 0)

theorem cueIn_le_cueOutFinal (c : Config) (fr : List Frame) (hne : fr ≠ [])
    (h0 : 0 ≤ ptsAt fr 0)
    (hmono : ∀ b, b < fr.length → ∀ a, a ≤ b → ptsAt fr a ≤ ptsAt fr b) :
    cueInTime c fr ≤ cueOutFinal c fr := by
  unfold cueOutFinal
  cases hflag : blankSkippedFlag c fr with
  | false =>
    simp only [hflag, Bool.false_eq_true, if_false]
    exact cueIn_le_cueOutNormal c fr hne h0 hmono
  | true =>
    simp only [hflag, if_true]
    obtain ⟨m, hsm, hmlen, _, hval⟩ :=
      blankOut_found_spec c fr (blankSkippedFlag_found c fr hflag)
    rw [hval]
    have h1 := cueInTime_le_ptsStart c fr h0 hmono
    have h2 : ptsAt fr (startIdx c fr) ≤ ptsAt fr m := hmono m hmlen _ hsm
    linarith

theorem cueOutFinal_le_dur (c : Config) (fr : List Frame) (hne : fr ≠ [])
    (h0 : 0 ≤ ptsAt fr 0)
    (hmono : ∀ b, b < fr.length → ∀ a, a ≤ b → ptsAt fr a ≤ ptsAt fr b) :
    cueOutFinal c fr ≤ trackDuration fr := by
  unfold cueOutFinal
  cases hflag : blankSkippedFlag c fr with
  | false =>
    simp only [hflag, Bool.false_eq_true, if_false]
    exact cueOutNormal_le_dur c fr hne h0 hmono
  | true =>
    simp only [hflag, if_true]
    have h2 := (blankSkippedFlag_iff c fr).mp hflag
    have h3 := cueOutNormal_le_dur c fr hne h0 hmono
    linarith [h2.2.2]

theorem cueOutFinal_nonneg (c : Config) (fr : List Frame) (hne : fr ≠ [])
    (h0 : 0 ≤ ptsAt fr 0)
    (hmono : ∀ b, b < fr.length → ∀ a, a ≤ b → ptsAt fr a ≤ ptsAt fr b) :
    0 ≤ cueOutFinal c fr :=
  le_trans (cueInTime_nonneg c fr) (cueIn_le_cueOutFinal c fr hne h0 hmono)

theorem endFinal_le_length (c : Config) (fr : List Frame) :
    endFinal c fr ≤ fr.length := by
  unfold endFinal
  by_cases hb : c.blankSkip > 0
  · simp only [hb, if_true]
    exact blankOut_endBlank_le c fr
  · simp only [hb, if_false]
    unfold endNormal
    cases hj : cueOutIdx c fr with
    | none => exact le_refl _
    | some j =>
      have := (cueOutIdx_some_spec c fr hj).2.1
      show j + 1 ≤ fr.length
      omega

theorem window_pts_le (c : Config) (fr : List Frame) (_hne : fr ≠ [])
    (_h0 : 0 ≤ ptsAt fr 0)
    (hmono : ∀ b, b < fr.length → ∀ a, a ≤ b → ptsAt fr a ≤ ptsAt fr b)
    {k : Nat} (hk1 : startIdx c fr ≤ k) (hk2 : k < endFinal c fr)
    (hk3 : loudAt fr k > silenceLevel c fr) :
    ptsAt fr k ≤ cueOutFinal c fr := by
  have hkl : k < fr.length := lt_of_lt_of_le hk2 (endFinal_le_length c fr)
  have normalCase : blankSkippedFlag c fr = false → k < endNormal c fr →
      ptsAt fr k ≤ cueOutFinal c fr := by
    intro hflag hkn
    have hCO : cueOutFinal c fr = cueOutNormal c fr := by
      unfold cueOutFinal
      simp [hflag]
    rw [hCO]
    cases hj : cueOutIdx c fr with
    | none =>
      have hpre : cueOutPre c fr = 0 := cueOutPre_eq_of_none c fr hj
      have hd : ptsAt fr k < trackDuration fr := lt_trackDuration fr hmono hkl
      have h4 : trackDuration fr - cueOutPre c fr ≤ cueOutNormal c fr := le_max_right _ _
      rw [hpre] at h4
      linarith
    | some j =>
      obtain ⟨hsj, hjlen, hjp, hjmax⟩ := cueOutIdx_some_spec c fr hj
      have hkj : k ≤ j := by
        by_contra hc
        exact absurd hk3 (hjmax k (by omega) hkl)
      have h1 : ptsAt fr k ≤ ptsAt fr j := hmono j hjlen k hkj
      have h2 : cueOutPre c fr = ptsAt fr j := cueOutPre_eq_of_some c fr hj
      have h3 : cueOutPre c fr ≤ cueOutNormal c fr := le_max_left _ _
      linarith
  by_cases hb : c.blankSkip > 0
  · have hEF : endFinal c fr = (blankOut c fr).endBlank := by
      unfold endFinal; simp [hb]
    cases hflag : blankSkippedFlag c fr with
    | true =>
      obtain ⟨m, hsm, hmlen, hEB, hval⟩ :=
        blankOut_found_spec c fr (blankSkippedFlag_found c fr hflag)
      have hCO : cueOutFinal c fr = ptsAt fr m := by
        unfold cueOutFinal
        simp [hflag, hval]
      rw [hCO]
      exact hmono m hmlen k (by omega)
    | false =>
      -- the window may be the (possibly stale) endBlank; any above-silence
      -- frame inside it is still at or before the normal cue-out index
      have hCO : cueOutFinal c fr = cueOutNormal c fr := by
        unfold cueOutFinal
        simp [hflag]
      rw [hCO]
      cases hj : cueOutIdx c fr with
      | none => exact absurd hk3 (cueOutIdx_none_spec c fr hj k hk1 hkl)
      | some j =>
        obtain ⟨hsj, hjlen, hjp, hjmax⟩ := cueOutIdx_some_spec c fr hj
        have hkj : k ≤ j := by
          by_contra hc
          exact absurd hk3 (hjmax k (by omega) hkl)
        have h1 : ptsAt fr k ≤ ptsAt fr j := hmono j hjlen k hkj
        have h2 : cueOutPre c fr = ptsAt fr j := cueOutPre_eq_of_some c fr hj
        have h3 : cueOutPre c fr ≤ cueOutNormal c fr := le_max_left _ _
        linarith
  · have hflag : blankSkippedFlag c fr = false := by
      unfold blankSkippedFlag
      simp [hb]
    have hEF : endFinal c fr = endNormal c fr := by
      unfold endFinal; simp [hb]
    exact normalCase hflag (by omega)

theorem scanPickVal_bounds (c : Config) (fr : List Frame) (hne : fr ≠ [])
    (h0 : 0 ≤ ptsAt fr 0)
    (hmono : ∀ b, b < fr.length → ∀ a, a ≤ b → ptsAt fr a ≤ ptsAt fr b)
    {lvl : ℚ} (hlvl : silenceLevel c fr ≤ lvl) :
    0 ≤ scanPickVal c fr lvl ∧ scanPickVal c fr lvl ≤ cueOutFinal c fr := by
  unfold scanPickVal
  cases h : startNextScan c fr lvl with
  | none =>
    simpa using cueOutFinal_nonneg c fr hne h0 hmono
  | some k =>
    unfold startNextScan at h
    obtain ⟨h1, h2, h3, _⟩ := revScan_eq_some _ fr _ _ k h
    have hk2 : k < endFinal c fr := by omega
    have hk3 : loudAt fr k > lvl := by simpa [loudAt] using h3
    have hkl : k < fr.length := lt_of_lt_of_le hk2 (endFinal_le_length c fr)
    exact ⟨ptsAt_nonneg fr h0 hmono hkl,
      window_pts_le c fr hne h0 hmono h1 hk2 (lt_of_le_of_lt hlvl hk3)⟩

theorem maxCorrect_le {t co : ℚ} (h1 : 0 ≤ t) (h2 : t ≤ co) :
    maxCorrect t co ≤ co := by
  unfold maxCorrect
  apply max_le h2
  linarith

theorem crossStartNext_le_cueOut (c : Config) (fr : List Frame) (hne : fr ≠ [])
    (h0 : 0 ≤ ptsAt fr 0)
    (hmono : ∀ b, b < fr.length → ∀ a, a ≤ b → ptsAt fr a ≤ ptsAt fr b)
    (hso : c.silence ≤ c.overlay) (hse : c.silence ≤ c.overlay + c.extra) :
    crossStartNextFinal c fr ≤ cueOutFinal c fr := by
  have hnonneg := cueOutFinal_nonneg c fr hne h0 hmono
  unfold crossStartNextFinal
  apply max_le
  apply max_le
  · unfold startNextNormal
    obtain ⟨hp1, hp2⟩ := scanPickVal_bounds c fr hne h0 hmono
      (show silenceLevel c fr ≤ overlayLevel c fr by
        unfold overlayLevel silenceLevel; linarith)
    exact maxCorrect_le hp1 hp2
  · unfold startNextSustained
    cases hf : sustainedFlag c fr with
    | false => simpa using hnonneg
    | true =>
      simp only [if_true]
      have hlvl : silenceLevel c fr ≤ sustainedLevel c fr := by
        have h := le_max_right (calcEndingY (endingSlice c fr)).2
          (trackLoudness fr + c.overlay + c.extra)
        unfold sustainedLevel silenceLevel
        linarith
      obtain ⟨hp1, hp2⟩ := scanPickVal_bounds c fr hne h0 hmono hlvl
      exact maxCorrect_le hp1 hp2
  · unfold startNextLongtail
    cases hf : longtailFlag c fr with
    | false => simpa using hnonneg
    | true =>
      simp only [if_true]
      have hlvl : silenceLevel c fr ≤ longtailLevel c fr := by
        unfold longtailLevel silenceLevel
        linarith
      obtain ⟨hp1, hp2⟩ := scanPickVal_bounds c fr hne h0 hmono hlvl
      exact maxCorrect_le hp1 hp2

/-! ## Claim C1 -/

/-- Configuration with overlay offset below the silence offset, blank
detection enabled. -/
def c1xCfg : Config := ⟨-18, 100, -42, -60, 15, -12, 40, false⟩

/-- A series with a loud frame in the middle and a quiet tail whose loudness
lies between the overlay level and the silence level. -/
def c1xFr : List Frame :=
  [⟨0, -70, 0⟩, ⟨1, -70, 0⟩, ⟨2, 0, 0⟩, ⟨3, -70, 0⟩, ⟨4, -70, 0⟩, ⟨5, -70, -20⟩]

/-- C1, counterexample: on a valid non-empty series (non-negative,
non-decreasing timestamps) with a configuration whose overlay offset lies
below the silence offset and whose blank scan runs into the end of the track,
the decision violates crossStartNext ≤ cueOut: the overlay scans keep the full
window and pick a quiet tail frame past the cue-out. -/
theorem c1_counterexample :
    c1xFr ≠ [] ∧ 0 ≤ ptsAt c1xFr 0 ∧
      (∀ b, b < c1xFr.length → ∀ a, a ≤ b → ptsAt c1xFr a ≤ ptsAt c1xFr b) ∧
      (scan c1xCfg 0 0 0 c1xFr).cueOut < (scan c1xCfg 0 0 0 c1xFr).crossStartNext := by
  refine ⟨by decide, by decide, by decide, ?_⟩
  have h1 : (scan c1xCfg 0 0 0 c1xFr).cueOut = 31/10 := by
    norm_num [scan, cueOutFinal, blankSkippedFlag, blankOut, blankLoop, cueOutNormal,
      cueOutPre, cueOutIdx, revScan, trackDuration, round2, silenceLevel, trackLoudness,
      lastFrame, startIdx, cueInIdx, fwdScan, getF, ptsAt, loudAt, dFrame, c1xCfg, c1xFr]
  have h2 : (scan c1xCfg 0 0 0 c1xFr).crossStartNext = 5 := by
    norm_num [scan, crossStartNextFinal, startNextNormal, startNextSustained,
      startNextLongtail, sustainedFlag, sustainedLevel, longtailFlag, longtailLevel,
      calcEndingY, endingSlice, startNextIdxN, maxCorrect, scanPickVal, startNextScan,
      endFinal, endNormal, overlayLevel, cueOutFinal, blankSkippedFlag, blankOut,
      blankLoop, cueOutNormal, cueOutPre, cueOutIdx, revScan, trackDuration, round2,
      silenceLevel, trackLoudness, lastFrame, startIdx, cueInIdx, fwdScan, getF, ptsAt,
      loudAt, dFrame, c1xCfg, c1xFr]
  rw [h1, h2]
  norm_num

/-- C1, amended: for every non-empty Sample Series with non-negative,
non-decreasing timestamps, and every configuration whose silence offset lies
at or below both the overlay offset and the overlay-plus-extra offset (true of
all default and sensible configurations), the scan decision satisfies
0 ≤ cueIn ≤ cueOut ≤ duration and crossStartNext ≤ cueOut, after the
max(t, bound - t) corrections, blank reconciliation and the three-way overlay
consolidation. -/
theorem c1_scan_decision_bounds (c : Config) (fr : List Frame)
    (tp tpdb lra : ℚ) (hne : fr ≠ [])
    (h0 : 0 ≤ ptsAt fr 0)
    (hmono : ∀ b, b < fr.length → ∀ a, a ≤ b → ptsAt fr a ≤ ptsAt fr b)
    (hso : c.silence ≤ c.overlay) (hse : c.silence ≤ c.overlay + c.extra) :
    0 ≤ (scan c tp tpdb lra fr).cueIn ∧
      (scan c tp tpdb lra fr).cueIn ≤ (scan c tp tpdb lra fr).cueOut ∧
      (scan c tp tpdb lra fr).cueOut ≤ (scan c tp tpdb lra fr).duration ∧
      (scan c tp tpdb lra fr).crossStartNext ≤ (scan c tp tpdb lra fr).cueOut := by
  have e1 : (scan c tp tpdb lra fr).cueIn = cueInTime c fr := rfl
  have e2 : (scan c tp tpdb lra fr).cueOut = cueOutFinal c fr := rfl
  have e3 : (scan c tp tpdb lra fr).duration = trackDuration fr := rfl
  have e4 : (scan c tp tpdb lra fr).crossStartNext = crossStartNextFinal c fr := rfl
  rw [e1, e2, e3, e4]
  exact ⟨cueInTime_nonneg c fr, cueIn_le_cueOutFinal c fr hne h0 hmono,
    cueOutFinal_le_dur c fr hne h0 hmono,
    crossStartNext_le_cueOut c fr hne h0 hmono hso hse⟩

/-- Default-style configuration for the C1 witness. -/
def c1wCfg : Config := ⟨-18, 0, -42, -8, 15, -12, 40, false⟩

/-- Short valid series for the C1 witness. -/
def c1wFr : List Frame := [⟨0, 0, 0⟩, ⟨1, -100, -20⟩]

/-- Witness for the amended C1 at a concrete valid series and default-style
configuration. -/
theorem c1_witness :
    0 ≤ (scan c1wCfg 0 0 0 c1wFr).cueIn ∧
      (scan c1wCfg 0 0 0 c1wFr).cueIn ≤ (scan c1wCfg 0 0 0 c1wFr).cueOut ∧
      (scan c1wCfg 0 0 0 c1wFr).cueOut ≤ (scan c1wCfg 0 0 0 c1wFr).duration ∧
      (scan c1wCfg 0 0 0 c1wFr).crossStartNext ≤ (scan c1wCfg 0 0 0 c1wFr).cueOut :=
  c1_scan_decision_bounds c1wCfg c1wFr 0 0 0 (by decide) (by decide) (by decide)
    (by decide) (by norm_num [c1wCfg])

/-! ## Claim C2 -/

/-- C2: calcAmplify computes gain = targetLoudness - integratedLoudness; with
clip prevention enabled and maxGain = -1 - truePeakDb, a gain above maxGain is
clamped to exactly maxGain with correction maxGain - unclampedGain, otherwise
the correction is 0; with clip prevention disabled the unclamped gain and a 0
correction are always returned. -/
theorem c2_calcAmplify_spec (c : Config) (loudness tpdb : ℚ) :
    (c.noClip = true →
      ((c.targetLoudness - loudness > -1 - tpdb →
          calcAmplify c loudness tpdb =
            (-1 - tpdb, (-1 - tpdb) - (c.targetLoudness - loudness))) ∧
        (¬(c.targetLoudness - loudness > -1 - tpdb) →
          calcAmplify c loudness tpdb = (c.targetLoudness - loudness, 0)))) ∧
    (c.noClip = false → calcAmplify c loudness tpdb = (c.targetLoudness - loudness, 0)) := by
  unfold calcAmplify
  constructor
  · intro hc
    simp only [hc, if_true]
    constructor
    · intro hg; simp [hg]
    · intro hg; simp [hg]
  · intro hc; simp [hc]

/-- Clip-prevention configuration for the C2 witness. -/
def c2wCfg : Config := ⟨-18, 0, -42, -8, 15, -12, 40, true⟩

/-- Witness for C2: at target -18, loudness -30 and true peak 0 dB the gain 12
is clamped to -1 with correction -13. -/
theorem c2_witness :
    calcAmplify c2wCfg (-30) 0 =
      (-1 - 0, (-1 - 0) - (c2wCfg.targetLoudness - -30)) :=
  ((c2_calcAmplify_spec c2wCfg (-30) 0).1 rfl).1 (by norm_num [c2wCfg])

/-! ## Claim C3 -/

/-- Configuration with blank-skip 3/2 seconds for the C3 counterexample. -/
def c3xCfg : Config := ⟨-18, 3/2, -42, -8, 15, -12, 40, false⟩

/-- An entirely silent series starting at timestamp 0. -/
def c3xFr : List Frame :=
  [⟨0, -100, 0⟩, ⟨1, -100, 0⟩, ⟨2, -100, 0⟩, ⟨3, -100, -20⟩]

/-- C3, counterexample: on an entirely silent valid series the blank scan
finds a qualifying silence run starting at timestamp 0, strictly earlier than
the normal cue-out, with blank-skip positive — yet blankSkipped stays false
and the cue-out keeps the normal value, because the code treats the 0.0
candidate as the no-candidate sentinel (0.0 < cueOutTimeBlank fails,
calculator.go line 563). -/
theorem c3_counterexample :
    c3xFr ≠ [] ∧ 0 ≤ ptsAt c3xFr 0 ∧
      (∀ b, b < c3xFr.length → ∀ a, a ≤ b → ptsAt c3xFr a ≤ ptsAt c3xFr b) ∧
      c3xCfg.blankSkip > 0 ∧ (blankOut c3xCfg c3xFr).found = true ∧
      (blankOut c3xCfg c3xFr).cueOutTimeBlank < cueOutNormal c3xCfg c3xFr ∧
      (scan c3xCfg 0 0 0 c3xFr).blankSkipped = false ∧
      (scan c3xCfg 0 0 0 c3xFr).cueOut ≠ (blankOut c3xCfg c3xFr).cueOutTimeBlank := by
  refine ⟨by decide, by decide, by decide, by norm_num [c3xCfg], ?_, ?_, ?_, ?_⟩ <;>
    norm_num [scan, blankSkippedFlag, blankOut, blankLoop, cueOutFinal, cueOutNormal,
      cueOutPre, cueOutIdx, revScan, trackDuration, round2, silenceLevel, trackLoudness,
      lastFrame, startIdx, cueInIdx, fwdScan, getF, ptsAt, loudAt, dFrame, c3xCfg, c3xFr]

/-- C3, amended: blankSkipped is true exactly when blank-skip is positive, the
blank scan found a qualifying silence run, and the run's start timestamp is
both positive and strictly earlier than the normal cue-out (a run starting at
timestamp 0 is conflated with the no-candidate sentinel and never fires); when
the flag is set the cue-out is the blank run's start timestamp, otherwise the
normal cue-out. -/
theorem c3_blank_skipped_spec (c : Config) (fr : List Frame) (tp tpdb lra : ℚ) :
    ((scan c tp tpdb lra fr).blankSkipped = true ↔
      c.blankSkip > 0 ∧ (blankOut c fr).found = true ∧
        0 < (blankOut c fr).cueOutTimeBlank ∧
        (blankOut c fr).cueOutTimeBlank < cueOutNormal c fr) ∧
    ((scan c tp tpdb lra fr).blankSkipped = true →
      ∃ m, startIdx c fr ≤ m ∧ m < fr.length ∧
        (scan c tp tpdb lra fr).cueOut = ptsAt fr m ∧
        (blankOut c fr).cueOutTimeBlank = ptsAt fr m ∧
        (blankOut c fr).endBlank = m + 1) ∧
    ((scan c tp tpdb lra fr).blankSkipped = false →
      (scan c tp tpdb lra fr).cueOut = cueOutNormal c fr) := by
  have e1 : (scan c tp tpdb lra fr).blankSkipped = blankSkippedFlag c fr := rfl
  have e2 : (scan c tp tpdb lra fr).cueOut = cueOutFinal c fr := rfl
  rw [e1, e2]
  refine ⟨?_, ?_, ?_⟩
  · rw [blankSkippedFlag_iff]
    constructor
    · rintro ⟨h1, h2, h3⟩
      refine ⟨h1, ?_, h2, h3⟩
      by_contra hc
      have h4 := blankOut_not_found c fr (by simpa using hc)
      rw [h4] at h2
      exact lt_irrefl 0 h2
    · rintro ⟨h1, _, h2, h3⟩
      exact ⟨h1, h2, h3⟩
  · intro hf
    obtain ⟨m, hm1, hm2, hm3, hm4⟩ :=
      blankOut_found_spec c fr (blankSkippedFlag_found c fr hf)
    refine ⟨m, hm1, hm2, ?_, hm4, hm3⟩
    unfold cueOutFinal
    simp [hf, hm4]
  · intro hf
    unfold cueOutFinal
    simp [hf]

/-- Configuration with blank-skip 2 seconds for the C3 witness. -/
def c3wCfg : Config := ⟨-18, 2, -42, -8, 15, -12, 40, false⟩

/-- A series with an internal silence gap (timestamps 1 to 3) and a loud tail. -/
def c3wFr : List Frame :=
  [⟨0, 0, 0⟩, ⟨1, -100, 0⟩, ⟨2, -100, 0⟩, ⟨3, -100, 0⟩, ⟨4, 0, 0⟩, ⟨5, 0, -20⟩]

/-- Witness for the amended C3: a firing blank reconciliation. -/
theorem c3_witness :
    ∃ m, startIdx c3wCfg c3wFr ≤ m ∧ m < c3wFr.length ∧
      (scan c3wCfg 0 0 0 c3wFr).cueOut = ptsAt c3wFr m ∧
      (blankOut c3wCfg c3wFr).cueOutTimeBlank = ptsAt c3wFr m ∧
      (blankOut c3wCfg c3wFr).endBlank = m + 1 :=
  (c3_blank_skipped_spec c3wCfg c3wFr 0 0 0).2.1 (by
    norm_num [scan, blankSkippedFlag, blankOut, blankLoop, cueOutNormal, cueOutPre,
      cueOutIdx, revScan, trackDuration, round2, silenceLevel, trackLoudness,
      lastFrame, startIdx, cueInIdx, fwdScan, getF, ptsAt, loudAt, dFrame,
      c3wCfg, c3wFr])

/-! ## Claim C4 -/

/-- Configuration with blank-skip 5 seconds for the C4 counterexample. -/
def c4xCfg : Config := ⟨-18, 5, -42, -8, 15, -12, 40, false⟩

/-- A series with a single too-short silence frame in the middle. -/
def c4xFr : List Frame :=
  [⟨0, 0, 0⟩, ⟨1, -100, 0⟩, ⟨2, 0, 0⟩, ⟨3, 0, -20⟩]

/-- C4, counterexample: blank-skip is enabled but only a too-short silence run
is found, so no candidate exists and blankSkipped is false — yet the scan
window for the later overlay scans is shrunk to endBlank = 2 (one past the
too-short run's start) instead of the normal cue-out window end 4: the Go code
executes end = endBlank whenever blankSkip > 0 (calculator.go line 567), and
endBlank keeps its stale value from the abandoned run. -/
theorem c4_counterexample :
    c4xCfg.blankSkip > 0 ∧
      (blankOut c4xCfg c4xFr).found = false ∧
      (scan c4xCfg 0 0 0 c4xFr).blankSkipped = false ∧
      endNormal c4xCfg c4xFr = 4 ∧ endFinal c4xCfg c4xFr = 2 := by
  refine ⟨by norm_num [c4xCfg], ?_, ?_, ?_, ?_⟩ <;>
    norm_num [scan, blankSkippedFlag, blankOut, blankLoop, endFinal, endNormal,
      cueOutFinal, cueOutNormal, cueOutPre, cueOutIdx, revScan, trackDuration, round2,
      silenceLevel, trackLoudness, lastFrame, startIdx, cueInIdx, fwdScan, getF, ptsAt,
      loudAt, dFrame, c4xCfg, c4xFr]

/-- C4, amended: whenever blank-skip is positive the upper bound of the window
used by the overlay, sustained-ending and long-tail scans is endBlank — one
past the start of the last silence run the blank scan entered, whether or not
that run produced a candidate or the candidate beat the normal cue-out (it
equals the series length when no run was entered or the last run reached the
end of the series); only when blank-skip is zero or negative do those scans
use the window ending at the normal cue-out sample.  When blankSkipped fires,
the window bound is one past the frame whose timestamp is the final cue-out. -/
theorem c4_window_spec (c : Config) (fr : List Frame) (tp tpdb lra : ℚ) :
    (c.blankSkip > 0 → endFinal c fr = (blankOut c fr).endBlank) ∧
    (¬(c.blankSkip > 0) → endFinal c fr = endNormal c fr) ∧
    ((scan c tp tpdb lra fr).blankSkipped = true →
      ∃ m, (blankOut c fr).endBlank = m + 1 ∧ m < fr.length ∧
        endFinal c fr = m + 1 ∧
        (scan c tp tpdb lra fr).cueOut = ptsAt fr m) := by
  have e1 : (scan c tp tpdb lra fr).blankSkipped = blankSkippedFlag c fr := rfl
  have e2 : (scan c tp tpdb lra fr).cueOut = cueOutFinal c fr := rfl
  rw [e1, e2]
  refine ⟨?_, ?_, ?_⟩
  · intro hb
    unfold endFinal
    simp [hb]
  · intro hb
    unfold endFinal
    simp [hb]
  · intro hf
    obtain ⟨m, hm1, hm2, hm3, hm4⟩ :=
      blankOut_found_spec c fr (blankSkippedFlag_found c fr hf)
    have hb : c.blankSkip > 0 := ((blankSkippedFlag_iff c fr).mp hf).1
    refine ⟨m, hm3, hm2, ?_, ?_⟩
    · unfold endFinal
      simp [hb, hm3]
    · unfold cueOutFinal
      simp [hf, hm4]

/-- Witness for the amended C4 at a concrete blank-skipping series. -/
theorem c4_witness :
    endFinal c4xCfg c4xFr = (blankOut c4xCfg c4xFr).endBlank :=
  (c4_window_spec c4xCfg c4xFr 0 0 0).1 (by norm_num [c4xCfg])

/-! ## Claim C7 -/

/-- C7: for a non-empty series the cue-in is the timestamp of the first
sample whose momentary loudness strictly exceeds
silenceLevel = final integrated loudness + silence offset, clamped to 0 when
that timestamp is below 0.4 seconds; when no sample exceeds the level the
cue-in is 0. -/
theorem c7_cue_in_spec (c : Config) (fr : List Frame) (tp tpdb lra : ℚ)
    (_hne : fr ≠ []) :
    silenceLevel c fr = trackLoudness fr + c.silence ∧
    (∀ i, cueInIdx c fr = some i →
      loudAt fr i > silenceLevel c fr ∧
        (∀ j, j < i → ¬(loudAt fr j > silenceLevel c fr)) ∧
        (scan c tp tpdb lra fr).cueIn =
          (if ptsAt fr i < 2/5 then 0 else ptsAt fr i)) ∧
    (cueInIdx c fr = none →
      (∀ j, j < fr.length → ¬(loudAt fr j > silenceLevel c fr)) ∧
      (scan c tp tpdb lra fr).cueIn = 0) := by
  have e1 : (scan c tp tpdb lra fr).cueIn = cueInTime c fr := rfl
  rw [e1]
  refine ⟨rfl, ?_, ?_⟩
  · intro i hI
    obtain ⟨h1, h2, h3⟩ := cueInIdx_some_spec c fr hI
    refine ⟨h2, h3, ?_⟩
    unfold cueInTime cueInRaw
    rw [hI]
  · intro hI
    refine ⟨cueInIdx_none_spec c fr hI, ?_⟩
    unfold cueInTime cueInRaw
    rw [hI]
    norm_num

/-- Configuration for the C7 witness. -/
def c7wCfg : Config := ⟨-18, 0, -42, -8, 15, -12, 40, false⟩

/-- Series whose first above-silence sample sits at timestamp 1. -/
def c7wFr : List Frame := [⟨0, -100, 0⟩, ⟨1, 0, -20⟩]

/-- Witness for C7: the cue-in of the concrete series is the first
above-silence timestamp, unclamped since it is at least 0.4 seconds. -/
theorem c7_witness :
    (scan c7wCfg 0 0 0 c7wFr).cueIn =
      (if ptsAt c7wFr 1 < 2/5 then 0 else ptsAt c7wFr 1) :=
  ((c7_cue_in_spec c7wCfg c7wFr 0 0 0 (by decide)).2.1 1 (by
    norm_num [cueInIdx, fwdScan, silenceLevel, trackLoudness, lastFrame, getF,
      dFrame, c7wCfg, c7wFr])).2.2

/-! ## Claim C8 -/

/-- C8: longTail is set exactly when the final cue-out minus the normal
(max-adjusted) overlay point exceeds the long-tail threshold; when set, the
long-tail overlay candidate is the backward scan for the last sample louder
than integratedLoudness + overlayOffset + extraOffset with the same
max(t, cueOut - t) correction, and the final crossStartNext is the maximum of
the normal, sustained and long-tail candidates. -/
theorem c8_longtail_spec (c : Config) (fr : List Frame) (tp tpdb lra : ℚ) :
    ((scan c tp tpdb lra fr).longTail = true ↔
      cueOutFinal c fr - startNextNormal c fr > c.longtailSeconds) ∧
    ((scan c tp tpdb lra fr).longTail = true →
      startNextLongtail c fr =
        maxCorrect (scanPickVal c fr (trackLoudness fr + c.overlay + c.extra))
          (cueOutFinal c fr)) ∧
    (scan c tp tpdb lra fr).crossStartNext =
      max (max (startNextNormal c fr) (startNextSustained c fr))
        (startNextLongtail c fr) := by
  have e1 : (scan c tp tpdb lra fr).longTail = longtailFlag c fr := rfl
  have e2 : (scan c tp tpdb lra fr).crossStartNext = crossStartNextFinal c fr := rfl
  rw [e1, e2]
  refine ⟨?_, ?_, rfl⟩
  · unfold longtailFlag
    simp
  · intro hf
    unfold startNextLongtail
    simp only [hf, if_true]
    rfl

/-- Configuration for the C8 witness (blank detection off). -/
def c8wCfg : Config := ⟨-18, 0, -42, -8, 15, -12, 40, false⟩

/-- A long track whose tail sits between the overlay level and the silence
level far from the end, producing a long-tail gap of 19 seconds. -/
def c8wFr : List Frame :=
  [⟨0, 0, 0⟩, ⟨21, 0, 0⟩, ⟨22, -40, 0⟩, ⟨40, -40, -20⟩]

/-- Witness for C8: the long-tail recomputation on a firing series. -/
theorem c8_witness :
    startNextLongtail c8wCfg c8wFr =
      maxCorrect
        (scanPickVal c8wCfg c8wFr (trackLoudness c8wFr + c8wCfg.overlay + c8wCfg.extra))
        (cueOutFinal c8wCfg c8wFr) :=
  (c8_longtail_spec c8wCfg c8wFr 0 0 0).2.1 (by
    norm_num [scan, longtailFlag, startNextNormal, maxCorrect, scanPickVal,
      startNextScan, endFinal, endNormal, overlayLevel, cueOutFinal, blankSkippedFlag,
      blankOut, cueOutNormal, cueOutPre, cueOutIdx, revScan, trackDuration, round2,
      silenceLevel, trackLoudness, lastFrame, startIdx, cueInIdx, fwdScan, getF, ptsAt,
      loudAt, dFrame, c8wCfg, c8wFr])

/-! ## Claim C9 -/

/-- C9: on the scan path of a non-empty series the reported duration is the
last timestamp plus 0.1 seconds rounded to two decimal places (the model of
formatting with %.2f and re-parsing), and exactly this derived value enters
the max(cueOut, duration - cueOut) correction of the normal cue-out. -/
theorem c9_duration_spec (c : Config) (fr : List Frame) (tp tpdb lra : ℚ)
    (_hne : fr ≠ []) :
    (scan c tp tpdb lra fr).duration = round2 (ptsAt fr (fr.length - 1) + 1/10) ∧
      cueOutNormal c fr =
        max (cueOutPre c fr) ((scan c tp tpdb lra fr).duration - cueOutPre c fr) := by
  exact ⟨rfl, rfl⟩

/-- Configuration for the C9 witness. -/
def c9wCfg : Config := ⟨-18, 0, -42, -8, 15, -12, 40, false⟩

/-- Series for the C9 witness. -/
def c9wFr : List Frame := [⟨0, 0, 0⟩, ⟨1, 0, -20⟩]

/-- Witness for C9 at a concrete series. -/
theorem c9_witness :
    (scan c9wCfg 0 0 0 c9wFr).duration =
      round2 (ptsAt c9wFr (c9wFr.length - 1) + 1/10) ∧
      cueOutNormal c9wCfg c9wFr =
        max (cueOutPre c9wCfg c9wFr)
          ((scan c9wCfg 0 0 0 c9wFr).duration - cueOutPre c9wCfg c9wFr) :=
  c9_duration_spec c9wCfg c9wFr 0 0 0 (by decide)

/-! ## Lookup lemmas for the tag map -/

theorem lookupTag_setTag_ne (tags : Tags) (k k' : String) (v : TagVal)
    (h : k' ≠ k) : lookupTag (setTag tags k v) k' = lookupTag tags k' := by
  unfold lookupTag setTag
  have hb : (k' == k) = false := beq_eq_false_iff_ne.mpr h
  simp [List.lookup, hb]

theorem lookup_adjustAmplifyTags (c : Config) (tags : Tags) (a r : TagVal)
    (k : String) (h1 : k ≠ "liq_reference_loudness") (h2 : k ≠ "liq_amplify") :
    lookupTag (adjustAmplifyTags c tags a r) k = lookupTag tags k := by
  unfold adjustAmplifyTags
  cases ha : parseNum a <;> cases hr : parseNum r <;>
    simp [lookupTag_setTag_ne _ _ _ _ h1, lookupTag_setTag_ne _ _ _ _ h2]

/-! ## Claim C5 -/

/-- Configuration for the C5 claim material. -/
def c5xCfg : Config := ⟨-18, 0, -42, -8, 15, -12, 40, false⟩

/-- A cached tag map whose liq_true_peak value is a non-numeric string while
every other required tag is present and numeric. -/
def c5xTags : Tags :=
  [("duration", .num 100), ("liq_cue_in", .num 1), ("liq_cue_out", .num 90),
   ("liq_cross_start_next", .num 80), ("replaygain_track_gain", .num 2),
   ("liq_amplify", .num 1), ("liq_reference_loudness", .num (-18)),
   ("liq_true_peak", .str "corrupt true peak"), ("liq_true_peak_db", .num (-3)),
   ("liq_loudness", .num (-20)), ("liq_loudness_range", .num 5)]

/-- C5, counterexample: a tag map whose liq_true_peak value is a non-numeric
string is NOT declared Insufficient — the Cache-Sufficiency Checker only
tests that tag for presence (calculator.go line 317) and never parses it, so
the check succeeds. -/
theorem c5_counterexample :
    lookupTag c5xTags "liq_true_peak" = some (.str "corrupt true peak") ∧
      parseNum (.str "corrupt true peak") = none ∧
      (doPreAnalysis c5xCfg c5xTags).isOk = true := by
  refine ⟨rfl, rfl, by decide⟩

/-- C5, amended: the Cache-Sufficiency Checker declares Insufficient whenever
the true-peak tag is absent, or the true-peak-dB or loudness tag is absent or
not numerically parseable; a present but non-numeric true-peak value is not
checked for parseability and does not cause Insufficient.  Stated in
contrapositive form: a sufficient map has the true-peak tag present and the
true-peak-dB and loudness tags present and parseable. -/
theorem c5_cache_parse_requirements (c : Config) (tags : Tags)
    (h : (doPreAnalysis c tags).isOk = true) :
    (∃ v, lookupTag tags "liq_true_peak" = some v) ∧
    (∃ v q, lookupTag tags "liq_true_peak_db" = some v ∧ parseNum v = some q) ∧
    (∃ v q, lookupTag tags "liq_loudness" = some v ∧ parseNum v = some q) := by
  unfold doPreAnalysis at h
  cases hfind : baseTags.find? (fun bt => (lookupTag tags bt).isNone) with
  | some bt => simp [hfind, Except.isOk, Except.toBool] at h
  | none =>
  simp only [hfind] at h
  cases hA : lookupTag tags "liq_amplify" with
  | none => simp [hA, Except.isOk, Except.toBool] at h
  | some vA =>
  simp only [hA] at h
  cases hR : lookupTag tags "liq_reference_loudness" with
  | none => simp [hR, Except.isOk, Except.toBool] at h
  | some vR =>
  simp only [hR] at h
  rw [lookup_adjustAmplifyTags c tags vA vR "liq_true_peak" (by decide) (by decide)] at h
  cases hTP : lookupTag tags "liq_true_peak" with
  | none => simp [hTP, Except.isOk, Except.toBool] at h
  | some vTP =>
  simp only [hTP] at h
  rw [lookup_adjustAmplifyTags c tags vA vR "liq_true_peak_db" (by decide) (by decide)] at h
  cases hDB : lookupTag tags "liq_true_peak_db" with
  | none => simp [hDB, Except.isOk, Except.toBool] at h
  | some vDB =>
  simp only [hDB] at h
  rw [lookup_adjustAmplifyTags c tags vA vR "liq_loudness" (by decide) (by decide)] at h
  cases hLD : lookupTag tags "liq_loudness" with
  | none => simp [hLD, Except.isOk, Except.toBool] at h
  | some vLD =>
  simp only [hLD] at h
  cases hPDB : parseNum vDB with
  | none => simp [hPDB, Except.isOk, Except.toBool] at h
  | some qDB =>
  simp only [hPDB] at h
  cases hPLD : parseNum vLD with
  | none => simp [hPLD, Except.isOk, Except.toBool] at h
  | some qLD =>
  exact ⟨⟨vTP, rfl⟩, ⟨vDB, qDB, rfl, hPDB⟩, ⟨vLD, qLD, rfl, hPLD⟩⟩

/-- Witness for the amended C5 on a concrete sufficient map. -/
theorem c5_witness :
    (∃ v, lookupTag c5xTags "liq_true_peak" = some v) ∧
    (∃ v q, lookupTag c5xTags "liq_true_peak_db" = some v ∧ parseNum v = some q) ∧
    (∃ v q, lookupTag c5xTags "liq_loudness" = some v ∧ parseNum v = some q) :=
  c5_cache_parse_requirements c5xCfg c5xTags (by decide)

/-! ## Claim C6 -/

/-- C6: Calc never surfaces the internal ErrRequireAnalysis of the
Cache-Sufficiency Checker to the caller: a probe failure is returned as the
collaborator error, a sufficient cache yields the normalized cache-path
result, and an insufficient cache falls back to the scan path, whose result
or error is returned as is. -/
theorem c6_calc_never_require_analysis (c : Config) (probeRes : Except String Tags)
    (scanRes : Except String Result) :
    (∀ r, calcModel c probeRes scanRes ≠ .error (.requireAnalysis r)) ∧
    (∀ e, probeRes = .error e → calcModel c probeRes scanRes = .error (.external e)) ∧
    (∀ tags, probeRes = .ok tags →
      (∃ t, doPreAnalysis c tags = .ok t ∧
          calcModel c probeRes scanRes =
            .ok (parseTags (adjustLoudness c (populate c t)))) ∨
      (∃ e, doPreAnalysis c tags = .error e ∧
          calcModel c probeRes scanRes = scanRes.mapError .external)) := by
  refine ⟨?_, ?_, ?_⟩
  · intro r
    cases probeRes with
    | error e => simp [calcModel]
    | ok tags =>
      cases h : doPreAnalysis c tags with
      | ok t => simp [calcModel, h]
      | error e =>
        cases scanRes with
        | ok res => simp [calcModel, h, Except.mapError]
        | error e2 => simp [calcModel, h, Except.mapError]
  · intro e he
    subst he
    rfl
  · intro tags ht
    subst ht
    cases h : doPreAnalysis c tags with
    | ok t => exact Or.inl ⟨t, rfl, by simp [calcModel, h]⟩
    | error e => exact Or.inr ⟨e, rfl, by simp [calcModel, h]⟩

/-- Configuration for the C6 witness. -/
def c6wCfg : Config := ⟨-18, 0, -42, -8, 15, -12, 40, false⟩

/-- An empty probe result: insufficient, forcing the scan fallback. -/
def c6wTags : Tags := []

/-- A concrete scan-path result for the C6 witness. -/
def c6wRes : Result :=
  ⟨0, 0, 0, 0, 0, false, false, .empty, .empty, .empty, .empty, .empty, 0, false, 0, .empty⟩

/-- Witness for C6: with an empty (insufficient) cached tag map the scan-path
outcome is handed through unchanged. -/
theorem c6_witness :
    (∃ t, doPreAnalysis c6wCfg c6wTags = .ok t ∧
        calcModel c6wCfg (.ok c6wTags) (.ok c6wRes) =
          .ok (parseTags (adjustLoudness c6wCfg (populate c6wCfg t)))) ∨
    (∃ e, doPreAnalysis c6wCfg c6wTags = .error e ∧
        calcModel c6wCfg (.ok c6wTags) (.ok c6wRes) =
          (Except.ok c6wRes : Except String Result).mapError CalcError.external) :=
  (c6_calc_never_require_analysis c6wCfg (.ok c6wTags) (.ok c6wRes)).2.2 c6wTags rfl

/-! ## Claim C10 -/

/-- C10: a present but non-numeric liq_blankskip value does not make the
Cache-Sufficiency Checker declare Insufficient: the blank-policy comparison is
silently skipped (calculator.go lines 344-345 only act when the parse error is
nil), so the cache is reused although the cached blank-skip policy cannot be
compared with the requested one.  With every other required tag present (and
the parseable ones numeric), the checker succeeds whatever the configured
blank-skip value is. -/
theorem c10_blankskip_unparseable_reused (c : Config) (tags : Tags) (s : String)
    (qa qr qtpdb qld : ℚ) (vdur vci vco vcs vrg vtp vlr : TagVal)
    (h1 : lookupTag tags "duration" = some vdur)
    (h2 : lookupTag tags "liq_cue_in" = some vci)
    (h3 : lookupTag tags "liq_cue_out" = some vco)
    (h4 : lookupTag tags "liq_cross_start_next" = some vcs)
    (h5 : lookupTag tags "replaygain_track_gain" = some vrg)
    (h6 : lookupTag tags "liq_amplify" = some (.num qa))
    (h7 : lookupTag tags "liq_reference_loudness" = some (.num qr))
    (h8 : lookupTag tags "liq_true_peak" = some vtp)
    (h9 : lookupTag tags "liq_true_peak_db" = some (.num qtpdb))
    (h10 : lookupTag tags "liq_loudness" = some (.num qld))
    (h11 : lookupTag tags "liq_loudness_range" = some vlr)
    (hblank : lookupTag tags "liq_blankskip" = some (.str s)) :
    ∃ t, doPreAnalysis c tags = .ok t := by
  have hfind : baseTags.find? (fun bt => (lookupTag tags bt).isNone) = none := by
    simp [baseTags, List.find?, h1, h2, h3, h4, h5]
  unfold doPreAnalysis
  rw [hfind, h6, h7]
  simp only []
  rw [lookup_adjustAmplifyTags c tags _ _ "liq_true_peak" (by decide) (by decide), h8]
  rw [lookup_adjustAmplifyTags c tags _ _ "liq_true_peak_db" (by decide) (by decide), h9]
  rw [lookup_adjustAmplifyTags c tags _ _ "liq_loudness" (by decide) (by decide), h10]
  simp only [parseNum]
  rw [lookupTag_setTag_ne _ _ _ _
      (by decide : ("liq_blankskip" : String) ≠ "liq_amplify_adjustment"),
    lookupTag_setTag_ne _ _ _ _
      (by decide : ("liq_blankskip" : String) ≠ "liq_amplify"),
    lookup_adjustAmplifyTags c tags _ _ "liq_blankskip" (by decide) (by decide), hblank]
  simp only [parseNum]
  rw [lookupTag_setTag_ne _ _ _ _
      (by decide : ("liq_loudness_range" : String) ≠ "liq_amplify_adjustment"),
    lookupTag_setTag_ne _ _ _ _
      (by decide : ("liq_loudness_range" : String) ≠ "liq_amplify"),
    lookup_adjustAmplifyTags c tags _ _ "liq_loudness_range" (by decide) (by decide), h11]
  exact ⟨_, rfl⟩

/-- A cached tag map whose liq_blankskip value is a non-numeric string while
every other required tag is present and numeric. -/
def c10wTags : Tags :=
  [("duration", .num 100), ("liq_cue_in", .num 1), ("liq_cue_out", .num 90),
   ("liq_cross_start_next", .num 80), ("replaygain_track_gain", .num 2),
   ("liq_amplify", .num 1), ("liq_reference_loudness", .num (-18)),
   ("liq_true_peak", .num 1), ("liq_true_peak_db", .num (-3)),
   ("liq_loudness", .num (-20)), ("liq_loudness_range", .num 5),
   ("liq_blankskip", .str "not a number")]

/-- Configuration for the C10 witness, with a positive blank-skip that could
never match the unparseable cached value. -/
def c10wCfg : Config := ⟨-18, 5, -42, -8, 15, -12, 40, false⟩

/-- Witness for C10 on a concrete map with an unparseable liq_blankskip. -/
theorem c10_witness : ∃ t, doPreAnalysis c10wCfg c10wTags = .ok t :=
  c10_blankskip_unparseable_reused c10wCfg c10wTags "not a number"
    1 (-18) (-3) (-20) (.num 100) (.num 1) (.num 90) (.num 80) (.num 2) (.num 1)
    (.num 5) rfl rfl rfl rfl rfl rfl rfl rfl rfl rfl rfl rfl

end Cue
